import Mathlib

/-!
Verification of the `python_terraform` wrapper (`python_terraform/__init__.py`).

The development shallowly embeds the module:

* `PyVal` models the dynamic values a caller may put in the keyword-option
  mapping (`None`, strings, booleans, integers, lists of strings, dicts of
  string pairs) together with Python truthiness and `str()` rendering.
* `encodeOption` is the body of the `for k, v in kwargs.items()` loop of
  `Terraform.generate_cmd_string`, with the source's branch order:
  underscore/hyphen replacement, `list`, `dict`, `v == ''`, `not v`, `bool`,
  final `-k=v`.
* `generate_cmd_tokens` / `generate_cmd_string` build the full command
  (binary, subcommand words, option tokens, positional args, joined by one
  space).
* `Terraform` mirrors the instance fields set in `__init__`;
  `Terraform.cmdRun`, `Terraform.applyRun`, `Terraform.outputRun` and
  `Terraform.read_state_file` mirror `cmd`, `apply`, `output` and
  `read_state_file`.  Subprocess execution is an explicit parameter
  `exec : String → ProcResult`; `Tfstate.load_file` (defined in
  `python_terraform/tfstate.py`, which is outside this source tree) and
  `json.loads` (Python standard library) are likewise abstract parameters.
-/

/-- Dynamic values accepted by the keyword-option mapping of
`generate_cmd_string`: Python `None`, `str`, `bool`, `int`, `list` of
strings and `dict` of string pairs (a Python dict preserves insertion
order, so a list of pairs is its faithful image). -/
inductive PyVal where
  | vnone : PyVal
  | vstr : String → PyVal
  | vbool : Bool → PyVal
  | vint : Int → PyVal
  | vlist : List String → PyVal
  | vdict : List (String × String) → PyVal
deriving DecidableEq, Repr

/-- Python truthiness `bool(v)` for the value shapes above: `None`, `False`,
`0`, `''`, `[]` and the empty dict are falsy, everything else truthy.
This models the `if not v: continue` test of `generate_cmd_string`. -/
def PyVal.truthy : PyVal → Bool
  | .vnone => false
  | .vstr s => s != ""
  | .vbool b => b
  | .vint n => n != 0
  | .vlist xs => !xs.isEmpty
  | .vdict xs => !xs.isEmpty

/-- Python comparison `v == ''`: true exactly for the empty string (in
particular `False == ''` and `0 == ''` are both false in Python).
This models the `if v == '':` test of `generate_cmd_string`. -/
def PyVal.eqEmptyStr : PyVal → Bool
  | .vstr s => s == ""
  | _ => false

/-- Python `str(v)` as used by the final `'-{k}={v}'.format(...)` branch,
after the source has already rewritten a `bool` into the literal text
`'true'`/`'false'`.  Lists and dicts never reach this branch (they are
consumed by the earlier branches). -/
def PyVal.pyStr : PyVal → String
  | .vnone => "None"
  | .vstr s => s
  | .vbool true => "true"
  | .vbool false => "false"
  | .vint n => toString n
  | .vlist _ => ""
  | .vdict _ => ""

/-- Python `k.replace('_', '-')`: the pattern is the single character `_`,
so the replacement is exactly a character map (the source guards the call
with `if '_' in k`, which does not change the result). -/
def replaceUnderscore (s : String) : String :=
  ⟨s.data.map (fun c => if c = '_' then '-' else c)⟩

/-- Helper of `pySplitWs`: splits a character list on runs of blanks,
accumulating the current word in reverse. -/
def splitWsAux : List Char → List Char → List String
  | [], acc => if acc.isEmpty then [] else [⟨acc.reverse⟩]
  | c :: cs, acc =>
      if c.isWhitespace then
        if acc.isEmpty then splitWsAux cs []
        else String.mk acc.reverse :: splitWsAux cs []
      else splitWsAux cs (c :: acc)

/-- Python `s.split()` with no argument: split on runs of whitespace,
dropping empty words. -/
def pySplitWs (s : String) : List String :=
  splitWsAux s.data []

/-- Python `s.lstrip()`: drop leading whitespace characters. -/
def pyLstrip (s : String) : String :=
  ⟨s.data.dropWhile (fun c => c.isWhitespace)⟩

/-- Body of the `for k, v in kwargs.items()` loop of
`Terraform.generate_cmd_string`: the tokens contributed by one keyword
option `(k, v)`.  Branches in source order:

1. every `_` in the name is replaced by `-`;
2. a `list` value yields one `-k=element` token per element;
3. a `dict` value yields one `-k='key=value'` token per entry;
4. `v == ''` yields the bare flag `-k`;
5. any other falsy value (`None`, `False`, `0`, empty containers) is skipped;
6. otherwise a `bool` is rendered as `true`/`false` and the token is `-k=v`. -/
def encodeOption (k0 : String) (v : PyVal) : List String :=
  let k := replaceUnderscore k0
  match v with
  | PyVal.vlist xs => xs.map (fun sub_v => "-" ++ k ++ "=" ++ sub_v)
  | PyVal.vdict xs =>
      xs.map (fun p => "-" ++ k ++ "='" ++ p.1 ++ "=" ++ p.2 ++ "'")
  | v =>
      if v.eqEmptyStr then ["-" ++ k]
      else if !v.truthy then []
      else ["-" ++ k ++ "=" ++ v.pyStr]

/-- Token list built by `Terraform.generate_cmd_string`: the binary, the
subcommand words (`cmd.split()`), one block of tokens per keyword option in
mapping order, then the positional arguments. -/
def generate_cmd_tokens (bin cmd : String) (args : List String)
    (kwargs : List (String × PyVal)) : List String :=
  (bin :: pySplitWs cmd)
    ++ kwargs.flatMap (fun p => encodeOption p.1 p.2)
    ++ args

/-- Return value of `Terraform.generate_cmd_string`: the token list joined
with single spaces (`' '.join(cmds)`). -/
def generate_cmd_string (bin cmd : String) (args : List String)
    (kwargs : List (String × PyVal)) : String :=
  String.intercalate " " (generate_cmd_tokens bin cmd args kwargs)

/-- Result of parsing a `.tfstate` file.  Modelled from the spec: the class
`Tfstate` and its constructor `Tfstate.load_file` live in
`python_terraform/tfstate.py`, which is not part of this source tree; the
spec describes the result only as "an opaque structured document loaded
from a file path", so we keep the document abstract as its raw content. -/
structure Tfstate where
  raw : String
deriving DecidableEq, Repr

/-- Instance fields of `Terraform` as set by `__init__` (plus the `tfstate`
snapshot, initially the empty `dict()`, which we model as `none`). -/
structure Terraform where
  working_dir : Option String
  state : Option String
  targets : List String
  «variables» : List (String × String)
  parallelism : Option Int
  terraform_bin_path : String
  var_file : Option String
  input : Bool
  tfstate : Option Tfstate
deriving DecidableEq, Repr

/-- Python truthiness of an optional string (`if not x:` on a value that is
either `None` or a `str`): `None` and `''` are falsy. -/
def optTruthy : Option String → Bool
  | none => false
  | some s => s != ""

/-- Terraform `__init__`: `targets`/`variables` default to empty
containers, `terraform_bin_path` falls back to `'terraform'` when falsy,
`self.input = False`, and the `tfstate` snapshot starts as the empty
`dict()`. -/
def Terraform.make (working_dir : Option String) (targets : Option (List String))
    (state : Option String) («variables» : Option (List (String × String)))
    (parallelism : Option Int) (var_file : Option String)
    (terraform_bin_path : Option String) : Terraform :=
  { working_dir := working_dir
    state := state
    targets := targets.getD []
    «variables» := «variables».getD []
    parallelism := parallelism
    terraform_bin_path :=
      if optTruthy terraform_bin_path then terraform_bin_path.getD "terraform"
      else "terraform"
    var_file := var_file
    input := false
    tfstate := none }

/-- Lift an optional string field into the dynamic option mapping. -/
def optToPy : Option String → PyVal
  | none => PyVal.vnone
  | some s => PyVal.vstr s

/-- Lift an optional integer field into the dynamic option mapping. -/
def intOptToPy : Option Int → PyVal
  | none => PyVal.vnone
  | some n => PyVal.vint n

/-- Python `os.path.join(a, b)` for POSIX paths: an absolute second
component wins, otherwise the components are joined with one `/`. -/
def pathJoin (a b : String) : String :=
  match b.data with
  | '/' :: _ => b
  | _ =>
      match a.data.getLast? with
      | some '/' => a ++ b
      | _ => a ++ "/" ++ b

/-- Path resolved by `Terraform.read_state_file`: the explicit argument if
truthy, else `self.state` if truthy, else `'terraform.tfstate'`; joined
under `self.working_dir` when that is truthy. -/
def Terraform.stateFilePath (t : Terraform) (file_path : Option String) : String :=
  let fp1 : Option String := if optTruthy file_path then file_path else t.state
  let fp2 : String := if optTruthy fp1 then fp1.getD "terraform.tfstate" else "terraform.tfstate"
  if optTruthy t.working_dir then pathJoin (t.working_dir.getD "") fp2 else fp2

/-- Terraform `read_state_file`: loads the resolved state-file path through
`Tfstate.load_file` (abstract parameter `load_file`) and stores the result
in `self.tfstate`, replacing the previous snapshot wholesale. -/
def Terraform.read_state_file (t : Terraform) (load_file : String → Tfstate)
    (file_path : Option String) : Terraform :=
  { t with tfstate := some (load_file (t.stateFilePath file_path)) }

/-- Outcome of one `subprocess` run: `p.returncode` and the decoded
`stdout`/`stderr` captures. -/
structure ProcResult where
  ret : Int
  out : String
  err : String
deriving DecidableEq, Repr

/-- Observable outcome of `Terraform.cmd`: the (possibly updated) instance,
the encoded command string handed to the subprocess, the number of
`read_state_file` calls performed, and the returned
`(ret_code, out, err)` triple. -/
structure CmdOutcome where
  self : Terraform
  cmd_str : String
  reloads : Nat
  ret : Int
  out : String
  err : String
deriving DecidableEq, Repr

/-- Terraform `cmd`: encode the command, run it through the subprocess
(abstract parameter `exec`), and on exit code 0 reload the state file once
(`read_state_file()` with no argument); on a non-zero exit code the
instance is left untouched and the code plus captured streams are returned
to the caller. -/
def Terraform.cmdRun (t : Terraform) (exec : String → ProcResult)
    (load_file : String → Tfstate) (c : String) (args : List String)
    (kwargs : List (String × PyVal)) : CmdOutcome :=
  let s := generate_cmd_string t.terraform_bin_path c args kwargs
  let r := exec s
  if r.ret = 0 then
    { self := t.read_state_file load_file none, cmd_str := s, reloads := 1,
      ret := r.ret, out := r.out, err := r.err }
  else
    { self := t, cmd_str := s, reloads := 0,
      ret := r.ret, out := r.out, err := r.err }

/-- Python `dict.__setitem__` on an insertion-ordered dict rendered as a
pair list: replace in place when the key exists, else append. -/
def dictSet (d : List (String × PyVal)) (k : String) (v : PyVal) :
    List (String × PyVal) :=
  if d.any (fun p => p.1 == k) then
    d.map (fun p => if p.1 == k then (k, v) else p)
  else d ++ [(k, v)]

/-- Python `dict.update`: set each new binding in order. -/
def dictUpdate (d : List (String × PyVal)) (kvs : List (String × PyVal)) :
    List (String × PyVal) :=
  kvs.foldl (fun d p => dictSet d p.1 p.2) d

/-- Option mapping built by `Terraform.apply` before the caller's keyword
overrides are merged in: `state`, `target`, `var`, `var_file`,
`parallelism`, optionally `no_color`, then `input`, in insertion order. -/
def Terraform.applyBaseOptions (t : Terraform) (no_color : Bool) :
    List (String × PyVal) :=
  [("state", optToPy t.state),
   ("target", PyVal.vlist t.targets),
   ("var", PyVal.vdict t.«variables»),
   ("var_file", optToPy t.var_file),
   ("parallelism", intOptToPy t.parallelism)]
  ++ (if no_color then [("no_color", PyVal.vstr "")] else [])
  ++ [("input", PyVal.vbool t.input)]

/-- Option mapping of `Terraform.apply` after `option_dict.update(kwargs)`. -/
def Terraform.applyOptions (t : Terraform) (no_color : Bool)
    (kwargs : List (String × PyVal)) : List (String × PyVal) :=
  dictUpdate (t.applyBaseOptions no_color) kwargs

/-- Positional arguments of `Terraform.apply`:
`args = [working_dir] if working_dir else []`, where `working_dir` has
already fallen back to `self.working_dir` when the argument is falsy. -/
def Terraform.applyArgs (t : Terraform) (working_dir : Option String) :
    List String :=
  let wd := if optTruthy working_dir then working_dir else t.working_dir
  if optTruthy wd then [wd.getD ""] else []

/-- Token list of the command encoded by `Terraform.apply`. -/
def Terraform.applyTokens (t : Terraform) (working_dir : Option String)
    (no_color : Bool) (kwargs : List (String × PyVal)) : List String :=
  generate_cmd_tokens t.terraform_bin_path "apply" (t.applyArgs working_dir)
    (t.applyOptions no_color kwargs)

/-- Terraform `apply`: build the option mapping from the instance defaults,
merge the caller's overrides, run `cmd` with subcommand `apply`, and raise
`RuntimeError(err)` (modelled as `Except.error err`) exactly when the exit
code is non-zero. -/
def Terraform.applyRun (t : Terraform) (exec : String → ProcResult)
    (load_file : String → Tfstate) (working_dir : Option String)
    (no_color : Bool) (kwargs : List (String × PyVal)) :
    Except String CmdOutcome :=
  let r := t.cmdRun exec load_file "apply" (t.applyArgs working_dir)
    (t.applyOptions no_color kwargs)
  if r.ret ≠ 0 then Except.error r.err else Except.ok r

/-- Terraform `output(name)`: run `cmd('output', name, json='')`; on a
non-zero exit code return `None`, otherwise strip the captured stdout on
the left, decode it as JSON and take the entry under the fixed key
`'value'`.  `json.loads` followed by the `['value']` subscript is the
Python standard library, modelled by the abstract parameter `json_value`
(so `json_value s k` stands for `json.loads(s)[k]`). -/
def Terraform.outputRun {α : Type} (t : Terraform) (exec : String → ProcResult)
    (load_file : String → Tfstate) (json_value : String → String → α)
    (name : String) : Option α × Terraform :=
  let r := t.cmdRun exec load_file "output" [name] [("json", PyVal.vstr "")]
  if r.ret ≠ 0 then (none, r.self)
  else (some (json_value (pyLstrip r.out) "value"), r.self)

/-- Shared lemma: an absent (`None`) option value contributes no token. -/
theorem encodeOption_vnone (k : String) : encodeOption k PyVal.vnone = [] := rfl

/-- Shared lemma: the keyword options of a mapping whose values are all
`None` contribute no token at all. -/
theorem flatMap_encodeOption_all_vnone (kwargs : List (String × PyVal))
    (h : ∀ p ∈ kwargs, p.2 = PyVal.vnone) :
    kwargs.flatMap (fun p => encodeOption p.1 p.2) = [] := by
  induction kwargs with
  | nil => rfl
  | cons p ps ih =>
      have hp : p.2 = PyVal.vnone := h p (by simp)
      have hps : ∀ q ∈ ps, q.2 = PyVal.vnone := fun q hq => h q (by simp [hq])
      simp [hp, ih hps, encodeOption_vnone]

/-- Check of `encodeOption` against the docstring example
`terraform apply -var='a=b' -var='c=d' -no-color the_folder`. -/
theorem generate_cmd_string_docstring_example :
    generate_cmd_string "terraform" "apply" ["the_folder"]
      [("no_color", PyVal.vstr ""), ("var", PyVal.vdict [("a", "b"), ("c", "d")])]
      = "terraform apply -no-color -var='a=b' -var='c=d' the_folder" := by
  decide

/-- Claim C1, counterexample.  The claim states that encoding
`{"input": False}` yields the token `-input=false`.  In the source the
falsy-skip test `if not v: continue` runs before the boolean-rendering
branch and `False == ''` is false in Python, so a boolean `False` option is
dropped: the encoded token list for subcommand `plan` with
`{"input": False}` is exactly `["terraform", "plan"]` and contains no
`-input=false` token. -/
theorem c1_counterexample :
    generate_cmd_tokens "terraform" "plan" [] [("input", PyVal.vbool false)]
      = ["terraform", "plan"]
    ∧ "-input=false" ∉ generate_cmd_tokens "terraform" "plan" []
        [("input", PyVal.vbool false)] := by
  decide

/-- Claim C1, amended.  An option whose value is the boolean `False` is
skipped by the falsy-skip rule and produces no token (so encoding
`{"input": False}` yields no `-input` token at all); only the boolean
`True` reaches the boolean-rendering rule, producing `-<name>=true`. -/
theorem c1_amended_bool_false_skipped (k : String) :
    encodeOption k (PyVal.vbool false) = []
    ∧ encodeOption k (PyVal.vbool true) = ["-" ++ replaceUnderscore k ++ "=" ++ "true"]
    ∧ encodeOption "input" (PyVal.vbool true) = ["-input=true"]
    ∧ generate_cmd_tokens "terraform" "plan" [] [("input", PyVal.vbool false)]
        = ["terraform", "plan"] := by
  exact ⟨rfl, rfl, by decide, by decide⟩

/-- Claim C5.  A list-valued option expands to exactly one
`-<name>=<element>` token per element in list order (so an empty list
yields nothing), and a map-valued option expands to exactly one
`-<name>='<key>=<value>'` token per entry in entry order; in particular
`{"target": ["a","b"]}` encodes to `-target=a -target=b` and
`{"var": {"x":"1"}}` encodes to `-var='x=1'`. -/
theorem c5_list_and_map_expansion (k : String) (xs : List String)
    (m : List (String × String)) :
    encodeOption k (PyVal.vlist xs)
        = xs.map (fun el => "-" ++ replaceUnderscore k ++ "=" ++ el)
    ∧ encodeOption k (PyVal.vdict m)
        = m.map (fun p => "-" ++ replaceUnderscore k ++ "='" ++ p.1 ++ "=" ++ p.2 ++ "'")
    ∧ encodeOption k (PyVal.vlist []) = []
    ∧ encodeOption "target" (PyVal.vlist ["a", "b"]) = ["-target=a", "-target=b"]
    ∧ encodeOption "var" (PyVal.vdict [("x", "1")]) = ["-var='x=1'"] := by
  exact ⟨rfl, rfl, rfl, by decide, by decide⟩

/-- Claim C6.  An option whose value is the empty string becomes the bare
flag `-<name>` (no `=value` suffix), with every underscore of the name
replaced by a hyphen; in particular `{"no_color": ""}` encodes to the
single token `-no-color`. -/
theorem c6_empty_string_bare_flag (k : String) :
    encodeOption k (PyVal.vstr "") = ["-" ++ replaceUnderscore k]
    ∧ encodeOption "no_color" (PyVal.vstr "") = ["-no-color"]
    ∧ generate_cmd_tokens "terraform" "apply" [] [("no_color", PyVal.vstr "")]
        = ["terraform", "apply", "-no-color"] := by
  exact ⟨rfl, by decide, by decide⟩

/-- Claim C7.  An options mapping whose values are all absent (`None`)
contributes nothing: the encoded token list is exactly the one obtained
with no options at all (binary, subcommand words and positional
arguments), so an absent value never appears in the encoded string. -/
theorem c7_absent_options_vanish (bin c : String) (args : List String)
    (kwargs : List (String × PyVal)) (h : ∀ p ∈ kwargs, p.2 = PyVal.vnone) :
    generate_cmd_tokens bin c args kwargs = generate_cmd_tokens bin c args [] := by
  unfold generate_cmd_tokens
  rw [flatMap_encodeOption_all_vnone kwargs h]
  rfl

/-- Claim C7, witness at a concrete all-`None` mapping. -/
theorem c7_witness :
    (∀ p ∈ ([("state", PyVal.vnone), ("parallelism", PyVal.vnone)] :
        List (String × PyVal)), p.2 = PyVal.vnone)
    ∧ generate_cmd_tokens "terraform" "plan" ["dir"]
        [("state", PyVal.vnone), ("parallelism", PyVal.vnone)]
      = generate_cmd_tokens "terraform" "plan" ["dir"] [] :=
  ⟨by decide, c7_absent_options_vanish "terraform" "plan" ["dir"]
      [("state", PyVal.vnone), ("parallelism", PyVal.vnone)] (by decide)⟩

/-- Claim C10.  The underscore-to-hyphen rewrite touches only the option
name: every entry of a map-valued option keeps its key and value verbatim
inside the quoted `<key>=<value>` argument; concretely, option name
`var_name` becomes `-var-name` while the sub-key `x_y` and sub-value `a_b`
keep their underscores. -/
theorem c10_map_entries_verbatim (k sk sv : String) (m : List (String × String)) :
    encodeOption k (PyVal.vdict ((sk, sv) :: m))
        = ("-" ++ replaceUnderscore k ++ "='" ++ sk ++ "=" ++ sv ++ "'")
          :: encodeOption k (PyVal.vdict m)
    ∧ encodeOption "var_name" (PyVal.vdict [("x_y", "a_b")]) = ["-var-name='x_y=a_b'"]
    ∧ encodeOption "var" (PyVal.vdict [("x_y", "a_b")]) = ["-var='x_y=a_b'"] := by
  exact ⟨rfl, by decide, by decide⟩

/-- Claim C3.  One `cmd` invocation performs exactly one state reload when
the child process exits with code 0 (the snapshot is replaced by the
freshly loaded state file) and zero reloads otherwise, in which case the
whole instance — in particular the snapshot — is unchanged and the exit
code and captured stderr are returned to the caller. -/
theorem c3_reload_iff_success (t : Terraform) (exec : String → ProcResult)
    (load_file : String → Tfstate) (c : String) (args : List String)
    (kwargs : List (String × PyVal)) :
    (t.cmdRun exec load_file c args kwargs).reloads
        = (if (exec (generate_cmd_string t.terraform_bin_path c args kwargs)).ret = 0
           then 1 else 0)
    ∧ (t.cmdRun exec load_file c args kwargs).self
        = (if (exec (generate_cmd_string t.terraform_bin_path c args kwargs)).ret = 0
           then t.read_state_file load_file none else t)
    ∧ (t.cmdRun exec load_file c args kwargs).self.tfstate
        = (if (exec (generate_cmd_string t.terraform_bin_path c args kwargs)).ret = 0
           then some (load_file (t.stateFilePath none)) else t.tfstate)
    ∧ (t.cmdRun exec load_file c args kwargs).ret
        = (exec (generate_cmd_string t.terraform_bin_path c args kwargs)).ret
    ∧ (t.cmdRun exec load_file c args kwargs).err
        = (exec (generate_cmd_string t.terraform_bin_path c args kwargs)).err := by
  unfold Terraform.cmdRun
  by_cases h : (exec (generate_cmd_string t.terraform_bin_path c args kwargs)).ret = 0 <;>
    simp [h, Terraform.read_state_file]

/-- Claim C4.  The `apply` convenience wrapper raises exactly when the
underlying run exits non-zero, and the raised message is the captured
stderr itself (hence contains it verbatim); on exit code 0 it does not
raise. -/
theorem c4_apply_raises_stderr (t : Terraform) (exec : String → ProcResult)
    (load_file : String → Tfstate) (working_dir : Option String)
    (no_color : Bool) (kwargs : List (String × PyVal)) :
    t.applyRun exec load_file working_dir no_color kwargs
      = (if (exec (generate_cmd_string t.terraform_bin_path "apply"
              (t.applyArgs working_dir) (t.applyOptions no_color kwargs))).ret = 0
         then Except.ok (t.cmdRun exec load_file "apply" (t.applyArgs working_dir)
                (t.applyOptions no_color kwargs))
         else Except.error (exec (generate_cmd_string t.terraform_bin_path "apply"
                (t.applyArgs working_dir) (t.applyOptions no_color kwargs))).err) := by
  unfold Terraform.applyRun Terraform.cmdRun
  by_cases h : (exec (generate_cmd_string t.terraform_bin_path "apply"
      (t.applyArgs working_dir) (t.applyOptions no_color kwargs))).ret = 0 <;>
    simp [h]

/-- Claim C8.  `output(name)` returns the `None` sentinel whenever the
underlying run exits non-zero, and on exit code 0 returns the JSON decode
of the captured stdout (left-stripped) taken at the fixed top-level key
`value`. -/
theorem c8_output_sentinel_or_value (α : Type) (t : Terraform)
    (exec : String → ProcResult) (load_file : String → Tfstate)
    (json_value : String → String → α) (name : String) :
    (t.outputRun exec load_file json_value name).1
      = (if (exec (generate_cmd_string t.terraform_bin_path "output" [name]
              [("json", PyVal.vstr "")])).ret = 0
         then some (json_value (pyLstrip (exec (generate_cmd_string
                t.terraform_bin_path "output" [name]
                [("json", PyVal.vstr "")])).out) "value")
         else none) := by
  unfold Terraform.outputRun Terraform.cmdRun
  by_cases h : (exec (generate_cmd_string t.terraform_bin_path "output" [name]
      [("json", PyVal.vstr "")])).ret = 0 <;>
    simp [h]

/-- Suffix test on strings (character-wise), used to state the spec's
"encoded string ending in ..." scenario. -/
def strEndsWith (s suf : String) : Bool :=
  suf.data.isSuffixOf s.data

/-- Claim C2, counterexample.  The claim expects that an orchestrator
constructed with `variables={"a":"b"}` produces a string ending in
`plan -var='a=b'` from a raw `cmd` call with subcommand `plan` and no extra
options.  In the source, `cmd` passes only its own keyword arguments to
`generate_cmd_string`; the instance's `variables` field is consulted only
by `apply`.  So the encoded command of that call is exactly
`terraform plan`, which does not end in `plan -var='a=b'`. -/
theorem c2_counterexample :
    ((Terraform.make none none none (some [("a", "b")]) none none none).cmdRun
        (fun _ => ProcResult.mk 0 "" "") (fun p => Tfstate.mk p) "plan" [] []).cmd_str
      = "terraform plan"
    ∧ strEndsWith "terraform plan" "plan -var='a=b'" = false := by
  exact ⟨by decide, by decide⟩

/-- Claim C2, amended.  The raw run operation does not inject the
constructor's `variables`; passing them explicitly as the `var` keyword
option (as `apply` does) yields the expected encoding: `cmd` on subcommand
`plan` with option `var={"a":"b"}` and no positionals encodes to
`terraform plan -var='a=b'`, which ends in `plan -var='a=b'`, with token
order binary, subcommand, options, positionals. -/
theorem c2_amended_explicit_var_option :
    ((Terraform.make none none none (some [("a", "b")]) none none none).cmdRun
        (fun _ => ProcResult.mk 0 "" "") (fun p => Tfstate.mk p) "plan" []
        [("var", PyVal.vdict [("a", "b")])]).cmd_str
      = "terraform plan -var='a=b'"
    ∧ strEndsWith "terraform plan -var='a=b'" "plan -var='a=b'" = true
    ∧ generate_cmd_tokens "terraform" "plan" ["positional"]
        [("var", PyVal.vdict [("a", "b")])]
      = ["terraform", "plan", "-var='a=b'", "positional"] := by
  exact ⟨by decide, by decide, by decide⟩

/-- Property of being a `-input` flag token: the bare flag itself or any
`-input=...` assignment. -/
def IsInputToken (t : String) : Prop :=
  t = "-input" ∨ "-input=".data <+: t.data

instance (t : String) : Decidable (IsInputToken t) := by
  unfold IsInputToken
  infer_instance

/-- Helper: in a concatenation `as ++ sep :: bs`, the first occurrence of
`sep` determines the split, so two such decompositions with `sep`-free
prefixes have equal prefixes. -/
theorem eq_of_append_sep_eq (sep : Char) :
    ∀ (as cs bs ds : List Char), sep ∉ as → sep ∉ cs →
      as ++ sep :: bs = cs ++ sep :: ds → as = cs := by
  intro as
  induction as with
  | nil =>
      intro cs bs ds _ hc h
      cases cs with
      | nil => rfl
      | cons c cs' =>
          simp only [List.nil_append, List.cons_append, List.cons.injEq] at h
          exact absurd (by rw [← h.1]; exact List.mem_cons_self _ _) hc
  | cons a as' ih =>
      intro cs bs ds ha hc h
      cases cs with
      | nil =>
          simp only [List.cons_append, List.nil_append, List.cons.injEq] at h
          exact absurd (by rw [h.1]; exact List.mem_cons_self _ _) ha
      | cons c cs' =>
          simp only [List.cons_append, List.cons.injEq] at h
          have : as' = cs' := ih cs' bs ds (fun hm => ha (List.mem_cons_of_mem _ hm))
            (fun hm => hc (List.mem_cons_of_mem _ hm)) h.2
          rw [h.1, this]

/-- Character shape of an assigned flag token `-k=rest`. -/
theorem data_shape_assign (k r : String) :
    ("-" ++ k ++ "=" ++ r).data = '-' :: (k.data ++ '=' :: r.data) := by
  simp [String.data_append]

/-- Character shape of a quoted map entry token `-k='a=b'`. -/
theorem data_shape_dict (k a b : String) :
    ("-" ++ k ++ "='" ++ a ++ "=" ++ b ++ "'").data
      = '-' :: (k.data ++ '=' :: ("'" ++ a ++ "=" ++ b ++ "'").data) := by
  simp [String.data_append]

/-- Character shape of a bare flag token `-k`. -/
theorem data_shape_bare (k : String) :
    ("-" ++ k).data = '-' :: k.data := by
  simp [String.data_append]

/-- An assigned flag token whose (already hyphenated) name is not `input`
and contains no `=` is not a `-input` token. -/
theorem not_inputToken_assign (tok k : String) (rest : List Char)
    (hd : tok.data = '-' :: (k.data ++ '=' :: rest))
    (h1 : k ≠ "input") (h2 : '=' ∉ k.data) :
    ¬ IsInputToken tok := by
  rintro (h | ⟨r, hr⟩)
  · rw [h] at hd
    have hm : ('=' : Char) ∈ ("-input" : String).data := by
      rw [hd]
      exact List.mem_cons_of_mem _ (List.mem_append_right _ (List.mem_cons_self _ _))
    exact absurd hm (by decide)
  · rw [hd] at hr
    have h0 : '-' :: (("input" : String).data ++ '=' :: r)
        = '-' :: (k.data ++ '=' :: rest) := by
      rw [← hr]; rfl
    have hk : ("input" : String).data = k.data :=
      eq_of_append_sep_eq '=' _ _ _ _ (by decide) h2 (List.cons.inj h0).2
    exact h1 (String.ext hk.symm)

/-- A bare flag token whose (already hyphenated) name is not `input` and
contains no `=` is not a `-input` token. -/
theorem not_inputToken_bare (tok k : String)
    (hd : tok.data = '-' :: k.data)
    (h1 : k ≠ "input") (h2 : '=' ∉ k.data) :
    ¬ IsInputToken tok := by
  rintro (h | ⟨r, hr⟩)
  · rw [h] at hd
    have h0 : '-' :: ("input" : String).data = '-' :: k.data := by rw [← hd]
    exact h1 (String.ext ((List.cons.inj h0).2).symm)
  · rw [hd] at hr
    have h0 : '-' :: (("input" : String).data ++ '=' :: r) = '-' :: k.data := by
      rw [← hr]; rfl
    have hm : ('=' : Char) ∈ k.data := by
      rw [← (List.cons.inj h0).2]
      exact List.mem_append_right _ (List.mem_cons_self _ _)
    exact absurd hm h2

/-- Shared evaluation lemma: the boolean `True` option renders as `true`. -/
theorem encodeOption_vbool_true (k : String) :
    encodeOption k (PyVal.vbool true) = ["-" ++ replaceUnderscore k ++ "=" ++ "true"] := rfl

/-- Shared evaluation lemma: the boolean `False` option is skipped. -/
theorem encodeOption_vbool_false (k : String) :
    encodeOption k (PyVal.vbool false) = [] := rfl

/-- Shared evaluation lemma: the empty-string option is a bare flag. -/
theorem encodeOption_vstr_empty (k : String) :
    encodeOption k (PyVal.vstr "") = ["-" ++ replaceUnderscore k] := rfl

/-- Shared evaluation lemma: a non-empty string option is an assignment. -/
theorem encodeOption_vstr_ne (k s : String) (hs : s ≠ "") :
    encodeOption k (PyVal.vstr s) = ["-" ++ replaceUnderscore k ++ "=" ++ s] := by
  unfold encodeOption
  simp [PyVal.eqEmptyStr, PyVal.truthy, PyVal.pyStr, hs]

/-- Shared evaluation lemma: the integer zero option is skipped. -/
theorem encodeOption_vint_zero (k : String) :
    encodeOption k (PyVal.vint 0) = [] := rfl

/-- Shared evaluation lemma: a non-zero integer option is an assignment. -/
theorem encodeOption_vint_ne (k : String) (n : Int) (hn : n ≠ 0) :
    encodeOption k (PyVal.vint n) = ["-" ++ replaceUnderscore k ++ "=" ++ toString n] := by
  unfold encodeOption
  simp [PyVal.eqEmptyStr, PyVal.truthy, PyVal.pyStr, hn]

/-- No token produced for an option whose hyphenated name differs from
`input` and contains no `=` (as every Python identifier does) is a
`-input` token, whatever the value. -/
theorem encodeOption_no_input (k : String) (v : PyVal)
    (h1 : replaceUnderscore k ≠ "input")
    (h2 : '=' ∉ (replaceUnderscore k).data) :
    ∀ tok ∈ encodeOption k v, ¬ IsInputToken tok := by
  intro tok htok
  cases v with
  | vlist xs =>
      simp only [encodeOption, List.mem_map] at htok
      obtain ⟨el, _, rfl⟩ := htok
      exact not_inputToken_assign _ _ _ (data_shape_assign _ el) h1 h2
  | vdict xs =>
      simp only [encodeOption, List.mem_map] at htok
      obtain ⟨p, _, rfl⟩ := htok
      exact not_inputToken_assign _ _ _ (data_shape_dict _ p.1 p.2) h1 h2
  | vnone => rw [encodeOption_vnone] at htok; exact absurd htok (List.not_mem_nil _)
  | vbool b =>
      cases b with
      | false =>
          rw [encodeOption_vbool_false] at htok
          exact absurd htok (List.not_mem_nil _)
      | true =>
          rw [encodeOption_vbool_true, List.mem_singleton] at htok
          exact htok ▸ not_inputToken_assign _ _ _ (data_shape_assign _ "true") h1 h2
  | vint n =>
      by_cases hn : n = 0
      · rw [hn, encodeOption_vint_zero] at htok
        exact absurd htok (List.not_mem_nil _)
      · rw [encodeOption_vint_ne k n hn, List.mem_singleton] at htok
        exact htok ▸ not_inputToken_assign _ _ _ (data_shape_assign _ (toString n)) h1 h2
  | vstr s =>
      by_cases hs : s = ""
      · rw [hs, encodeOption_vstr_empty, List.mem_singleton] at htok
        exact htok ▸ not_inputToken_bare _ _ (data_shape_bare _) h1 h2
      · rw [encodeOption_vstr_ne k s hs, List.mem_singleton] at htok
        exact htok ▸ not_inputToken_assign _ _ _ (data_shape_assign _ s) h1 h2

/-- Membership after a single dict assignment: an entry of `dictSet d k v`
either already was in `d` or carries the assigned key. -/
theorem mem_dictSet (d : List (String × PyVal)) (k : String) (v : PyVal)
    (p : String × PyVal) (hp : p ∈ dictSet d k v) : p ∈ d ∨ p.1 = k := by
  unfold dictSet at hp
  by_cases hk : d.any (fun q => q.1 == k)
  · rw [if_pos hk] at hp
    rw [List.mem_map] at hp
    obtain ⟨q, hq, he⟩ := hp
    by_cases hq1 : q.1 == k
    · rw [if_pos hq1] at he
      right
      rw [← he]
    · rw [if_neg hq1] at he
      left
      rw [← he]
      exact hq
  · rw [if_neg hk, List.mem_append] at hp
    rcases hp with hp | hp
    · exact Or.inl hp
    · right
      rw [List.mem_singleton] at hp
      rw [hp]

/-- Membership after `dict.update`: an entry of the merged mapping either
already was in the base mapping or carries a key of the update. -/
theorem mem_dictUpdate (d kvs : List (String × PyVal)) (p : String × PyVal)
    (hp : p ∈ dictUpdate d kvs) : p ∈ d ∨ ∃ q ∈ kvs, p.1 = q.1 := by
  induction kvs generalizing d with
  | nil => exact Or.inl hp
  | cons q qs ih =>
      have hstep : p ∈ dictUpdate (dictSet d q.1 q.2) qs := hp
      rcases ih (dictSet d q.1 q.2) hstep with h | ⟨r, hr, he⟩
      · rcases mem_dictSet d q.1 q.2 p h with h' | h'
        · exact Or.inl h'
        · exact Or.inr ⟨q, List.mem_cons_self _ _, h'⟩
      · exact Or.inr ⟨r, List.mem_cons_of_mem _ hr, he⟩

/-- The entries of the option mapping `apply` builds from the instance
defaults are exactly the seven known ones. -/
theorem applyBaseOptions_mem (t : Terraform) (nc : Bool) (p : String × PyVal)
    (hp : p ∈ t.applyBaseOptions nc) :
    p = ("state", optToPy t.state) ∨ p = ("target", PyVal.vlist t.targets)
    ∨ p = ("var", PyVal.vdict t.«variables») ∨ p = ("var_file", optToPy t.var_file)
    ∨ p = ("parallelism", intOptToPy t.parallelism)
    ∨ p = ("no_color", PyVal.vstr "") ∨ p = ("input", PyVal.vbool t.input) := by
  unfold Terraform.applyBaseOptions at hp
  cases nc with
  | false => simp at hp; tauto
  | true => simp at hp; tauto

/-- Claim C9.  On a freshly constructed orchestrator (default binary path,
`input` initialised to the boolean `False`), an `apply` call whose keyword
overrides do not name the `input` option (their names, once hyphenated,
differ from `input` and — being Python identifiers — contain no `=`)
encodes to a command containing no `-input` token at all, bare or
assigned, provided the optional positional working directory is itself not
spelled like one. -/
theorem c9_fresh_apply_no_input_token (wd0 : Option String)
    (tg : Option (List String)) (st : Option String)
    (vs : Option (List (String × String))) (pl : Option Int) (vf : Option String)
    (working_dir : Option String) (no_color : Bool)
    (kwargs : List (String × PyVal))
    (hkw : ∀ p ∈ kwargs, replaceUnderscore p.1 ≠ "input"
            ∧ '=' ∉ (replaceUnderscore p.1).data)
    (hargs : ∀ a ∈ (Terraform.make wd0 tg st vs pl vf none).applyArgs working_dir,
            ¬ IsInputToken a) :
    ∀ tok ∈ (Terraform.make wd0 tg st vs pl vf none).applyTokens working_dir
        no_color kwargs, ¬ IsInputToken tok := by
  intro tok htok
  unfold Terraform.applyTokens generate_cmd_tokens at htok
  rw [show (Terraform.make wd0 tg st vs pl vf none).terraform_bin_path
      = "terraform" from rfl] at htok
  rw [show pySplitWs "apply" = ["apply"] from rfl] at htok
  simp only [List.mem_append, List.cons_append, List.nil_append, List.mem_cons] at htok
  rcases htok with rfl | rfl | htok | htok
  · decide
  · decide
  · rw [List.mem_flatMap] at htok
    obtain ⟨p, hpmem, htok⟩ := htok
    rcases mem_dictUpdate _ kwargs p hpmem with hbase | ⟨q, hq, he⟩
    · rcases applyBaseOptions_mem _ no_color p hbase with
        rfl | rfl | rfl | rfl | rfl | rfl | rfl
      · exact encodeOption_no_input "state" _ (by decide) (by decide) tok htok
      · exact encodeOption_no_input "target" _ (by decide) (by decide) tok htok
      · exact encodeOption_no_input "var" _ (by decide) (by decide) tok htok
      · exact encodeOption_no_input "var_file" _ (by decide) (by decide) tok htok
      · exact encodeOption_no_input "parallelism" _ (by decide) (by decide) tok htok
      · exact encodeOption_no_input "no_color" _ (by decide) (by decide) tok htok
      · rw [show (("input", PyVal.vbool (Terraform.make wd0 tg st vs pl vf none).input) :
              String × PyVal).2 = PyVal.vbool false from rfl] at htok
        rw [encodeOption_vbool_false] at htok
        exact absurd htok (List.not_mem_nil _)
    · obtain ⟨hq1, hq2⟩ := hkw q hq
      refine encodeOption_no_input p.1 p.2 ?_ ?_ tok htok
      · rw [he]; exact hq1
      · rw [he]; exact hq2
  · exact hargs tok htok

/-- Claim C9, witness: a fresh orchestrator, an explicit working directory
and one non-`input` override produce a command with no `-input` token. -/
theorem c9_witness :
    (∀ p ∈ ([("var_file", PyVal.vstr "x.tfvars")] : List (String × PyVal)),
        replaceUnderscore p.1 ≠ "input" ∧ '=' ∉ (replaceUnderscore p.1).data)
    ∧ (∀ a ∈ (Terraform.make none none none none none none none).applyArgs
          (some "dir"), ¬ IsInputToken a)
    ∧ (∀ tok ∈ (Terraform.make none none none none none none none).applyTokens
          (some "dir") true [("var_file", PyVal.vstr "x.tfvars")],
        ¬ IsInputToken tok) :=
  ⟨by decide, by decide,
    c9_fresh_apply_no_input_token none none none none none none (some "dir") true
      [("var_file", PyVal.vstr "x.tfvars")] (by decide) (by decide)⟩
